import Mathlib

/-
Verification of the CRPML (create-rpm-library) template/variant merge engine.

The definitions below are a shallow embedding of the TypeScript sources:
the template schema (src/schemas/template.ts), the custom merge result
schema (src/schemas/custom-result.ts) and the main module (mergeFiles,
sortByKeys, getVariantIdsWithRequired, getFullName, readTemplates and the
collection / post-processing logic of run).

JSON values are modelled by the mutual inductive below.  Numbers are
modelled as integers (the manifests the tool manipulates use integral
numbers only); JavaScript prototype-chain behaviour of objects is not
modelled, and JavaScript objects are modelled as insertion-ordered
key/value lists, matching the runtime behaviour for non-index string keys.
-/

namespace CRPML

mutual

inductive Json where
  | null : Json
  | bool (b : Bool) : Json
  | num (n : Int) : Json
  | str (s : String) : Json
  | arr (items : JsonList) : Json
  | obj (entries : JsonObj) : Json

inductive JsonList where
  | nil : JsonList
  | cons (hd : Json) (tl : JsonList) : JsonList

inductive JsonObj where
  | nil : JsonObj
  | cons (key : String) (value : Json) (tl : JsonObj) : JsonObj

end

deriving instance DecidableEq for Json, JsonList, JsonObj

def JsonList.append : JsonList → JsonList → JsonList
  | .nil, ys => ys
  | .cons x xs, ys => .cons x (xs.append ys)

def JsonList.ofList : List Json → JsonList
  | [] => .nil
  | x :: xs => .cons x (JsonList.ofList xs)

def JsonList.toList : JsonList → List Json
  | .nil => []
  | .cons x xs => x :: xs.toList

/-- First-match lookup, the model of JavaScript property access
(objects in the model never carry duplicate keys when they come from
`Json.parse` or from the merge operations). -/
def JsonObj.lookup : JsonObj → String → Option Json
  | .nil, _ => none
  | .cons k v tl, key => if k = key then some v else tl.lookup key

def JsonObj.hasKey (o : JsonObj) (key : String) : Bool :=
  (o.lookup key).isSome

/-- JavaScript property assignment: replace in place when the key exists,
append otherwise. -/
def JsonObj.setKey : JsonObj → String → Json → JsonObj
  | .nil, key, v => .cons key v .nil
  | .cons k v0 tl, key, v =>
    if k = key then .cons k v tl else .cons k v0 (tl.setKey key v)

def JsonObj.keys : JsonObj → List String
  | .nil => []
  | .cons k _ tl => k :: tl.keys

def JsonObj.ofList : List (String × Json) → JsonObj
  | [] => .nil
  | kv :: rest => .cons kv.1 kv.2 (JsonObj.ofList rest)

def Json.objEntries : Json → JsonObj
  | .obj o => o
  | _ => .nil

def Json.hasKey (j : Json) (k : String) : Bool :=
  j.objEntries.hasKey k

def Json.getOr (j : Json) (k : String) : Json :=
  (j.objEntries.lookup k).getD .null

/-- `isMergeableObject` of the deepmerge library: plain objects and arrays. -/
def isMergeable : Json → Bool
  | .arr _ => true
  | .obj _ => true
  | _ => false

/-- JavaScript truthiness of a JSON value. -/
def truthy : Json → Bool
  | .null => false
  | .bool b => b
  | .num n => n != 0
  | .str s => s != ""
  | .arr _ => true
  | .obj _ => true

/- Character constants, written via code points so that the file contains
no quote, backslash or brace characters inside character literals. -/

def quoteC : Char := Char.ofNat 34
def backslashC : Char := Char.ofNat 92
def lbraceC : Char := Char.ofNat 123
def rbraceC : Char := Char.ofNat 125
def nlC : Char := Char.ofNat 10
def crC : Char := Char.ofNat 13
def tabC : Char := Char.ofNat 9
def bsC : Char := Char.ofNat 8
def ffC : Char := Char.ofNat 12

def quoteS : String := String.singleton quoteC
def backslashS : String := String.singleton backslashC
def lbraceS : String := String.singleton lbraceC
def rbraceS : String := String.singleton rbraceC
def nlS : String := String.singleton nlC

/-- `listStartsWith pre cs` models `String.prototype.startsWith` over the
underlying character lists. -/
def listStartsWith : List Char → List Char → Bool
  | [], _ => true
  | _ :: _, [] => false
  | a :: as, b :: bs => a = b && listStartsWith as bs

def strStartsWith (s pre : String) : Bool :=
  listStartsWith pre.data s.data

def strDrop (s : String) (n : Nat) : String :=
  String.mk (s.data.drop n)

/-- `path.split` on the path separator, used to model the resolution of a
declared variant file path such as `src/index.ts` against the template
directory tree. -/
def splitPathAux : List Char → List Char → List String
  | [], acc => [String.mk acc.reverse]
  | c :: cs, acc =>
    if c = '/' then String.mk acc.reverse :: splitPathAux cs []
    else splitPathAux cs (c :: acc)

def splitPath (s : String) : List String :=
  splitPathAux s.data []

/-- UTF-16 code-unit comparison of the default JavaScript
`Array.prototype.sort` comparator, modelled on scalar values (identical on
the basic multilingual plane). -/
def charListLe : List Char → List Char → Bool
  | [], _ => true
  | _ :: _, [] => false
  | a :: as, b :: bs =>
    if a.toNat < b.toNat then true
    else if b.toNat < a.toNat then false
    else charListLe as bs

def strLe (a b : String) : Bool :=
  charListLe a.data b.data

def insertSorted (s : String) : List String → List String
  | [] => [s]
  | x :: xs => if strLe s x then s :: x :: xs else x :: insertSorted s xs

/-- The result of `Array.prototype.sort` with the default comparator on a
list of (distinct) strings: the unique lexicographically sorted ordering. -/
def sortStrings : List String → List String
  | [] => []
  | x :: xs => insertSorted x (sortStrings xs)

def strSortedB : List String → Bool
  | [] => true
  | [_] => true
  | a :: b :: rest => strLe a b && strSortedB (b :: rest)

/- ------------------------------------------------------------------ -/
/- JSON parsing (the model of JSON.parse).  The parser handles the JSON
   subset the tool manipulates: objects, arrays, strings with the
   single-character escapes, integers, booleans and null.  Duplicate keys
   follow the JavaScript rule: the later value wins, the key keeps its
   first position.  Recursion is fuelled to stay structural.            -/
/- ------------------------------------------------------------------ -/

def isWsChar (c : Char) : Bool :=
  c = ' ' || c = tabC || c = nlC || c = crC

def skipWs : List Char → List Char
  | [] => []
  | c :: cs => if isWsChar c then skipWs cs else c :: cs

def decodeEscape (e : Char) : Option Char :=
  if e = quoteC then some quoteC
  else if e = backslashC then some backslashC
  else if e = '/' then some '/'
  else if e = 'n' then some nlC
  else if e = 't' then some tabC
  else if e = 'r' then some crC
  else if e = 'b' then some bsC
  else if e = 'f' then some ffC
  else none

/-- Parse the remainder of a JSON string literal (after the opening
quote); returns the decoded content and the characters after the closing
quote. -/
def parseStringChars : Nat → List Char → Option (List Char × List Char)
  | 0, _ => none
  | _ + 1, [] => none
  | fuel + 1, c :: cs =>
    if c = quoteC then some ([], cs)
    else if c = backslashC then
      match cs with
      | [] => none
      | e :: cs2 =>
        match decodeEscape e with
        | none => none
        | some ch =>
          match parseStringChars fuel cs2 with
          | some (content, rest) => some (ch :: content, rest)
          | none => none
    else
      match parseStringChars fuel cs with
      | some (content, rest) => some (c :: content, rest)
      | none => none

def takeDigits : List Char → (List Char × List Char)
  | [] => ([], [])
  | c :: cs =>
    if c.isDigit then
      let (ds, rest) := takeDigits cs
      (c :: ds, rest)
    else ([], c :: cs)

def digitsToNat (ds : List Char) : Nat :=
  ds.foldl (fun acc c => acc * 10 + (c.toNat - 48)) 0

mutual

def parseValue : Nat → List Char → Option (Json × List Char)
  | 0, _ => none
  | fuel + 1, cs0 =>
    match skipWs cs0 with
    | [] => none
    | c :: rest =>
      if c = quoteC then
        match parseStringChars (rest.length + 1) rest with
        | some (content, r) => some (.str (String.mk content), r)
        | none => none
      else if c = lbraceC then
        match skipWs rest with
        | [] => none
        | c2 :: r2 =>
          if c2 = rbraceC then some (.obj .nil, r2)
          else parseObjItems fuel (c2 :: r2) .nil
      else if c = '[' then
        match skipWs rest with
        | [] => none
        | c2 :: r2 =>
          if c2 = ']' then some (.arr .nil, r2)
          else parseArrItems fuel (c2 :: r2) []
      else if c = 't' then
        match rest with
        | 'r' :: 'u' :: 'e' :: r => some (.bool true, r)
        | _ => none
      else if c = 'f' then
        match rest with
        | 'a' :: 'l' :: 's' :: 'e' :: r => some (.bool false, r)
        | _ => none
      else if c = 'n' then
        match rest with
        | 'u' :: 'l' :: 'l' :: r => some (.null, r)
        | _ => none
      else if c = '-' then
        match takeDigits rest with
        | ([], _) => none
        | (ds, r) => some (.num (-(Int.ofNat (digitsToNat ds))), r)
      else if c.isDigit then
        match takeDigits (c :: rest) with
        | (ds, r) => some (.num (Int.ofNat (digitsToNat ds)), r)
      else none

def parseArrItems : Nat → List Char → List Json → Option (Json × List Char)
  | 0, _, _ => none
  | fuel + 1, cs, acc =>
    match parseValue fuel cs with
    | none => none
    | some (v, r1) =>
      match skipWs r1 with
      | [] => none
      | c :: r2 =>
        if c = ',' then parseArrItems fuel r2 (acc ++ [v])
        else if c = ']' then some (.arr (JsonList.ofList (acc ++ [v])), r2)
        else none

def parseObjItems : Nat → List Char → JsonObj → Option (Json × List Char)
  | 0, _, _ => none
  | fuel + 1, cs, acc =>
    match skipWs cs with
    | [] => none
    | c :: rest =>
      if c = quoteC then
        match parseStringChars (rest.length + 1) rest with
        | none => none
        | some (keyChars, r1) =>
          match skipWs r1 with
          | ':' :: r2 =>
            match parseValue fuel r2 with
            | none => none
            | some (v, r3) =>
              let acc2 := acc.setKey (String.mk keyChars) v
              match skipWs r3 with
              | [] => none
              | c2 :: r4 =>
                if c2 = ',' then parseObjItems fuel r4 acc2
                else if c2 = rbraceC then some (.obj acc2, r4)
                else none
          | _ => none
      else none

end

/-- The model of `JSON.parse`: `none` models a thrown `SyntaxError`. -/
def Json.parse (s : String) : Option Json :=
  match parseValue (s.data.length + 1) s.data with
  | some (j, rest) => if (skipWs rest).isEmpty then some j else none
  | none => none

/- ------------------------------------------------------------------ -/
/- JSON serialization: JSON.stringify(v) and JSON.stringify(v, null, 2). -/
/- ------------------------------------------------------------------ -/

def escapeChar (c : Char) : String :=
  if c = quoteC then backslashS ++ quoteS
  else if c = backslashC then backslashS ++ backslashS
  else if c = nlC then backslashS ++ "n"
  else if c = tabC then backslashS ++ "t"
  else if c = crC then backslashS ++ "r"
  else if c = bsC then backslashS ++ "b"
  else if c = ffC then backslashS ++ "f"
  else String.singleton c

def escapeString (s : String) : String :=
  quoteS ++ String.join (s.data.map escapeChar) ++ quoteS

def natDigitsAux : Nat → Nat → List Char
  | 0, _ => []
  | _ + 1, 0 => []
  | fuel + 1, n => natDigitsAux fuel (n / 10) ++ [Char.ofNat (48 + n % 10)]

def natToString (n : Nat) : String :=
  if n = 0 then "0" else String.mk (natDigitsAux (n + 1) n)

/-- Decimal rendering of a JavaScript integral number. -/
def intToString : Int → String
  | .ofNat n => natToString n
  | .negSucc n => "-" ++ natToString (n + 1)

def indentStr (n : Nat) : String :=
  String.mk (List.replicate (2 * n) ' ')

mutual

/-- `JSON.stringify(v, null, 2)` at nesting level `lvl`. -/
def Json.stringify2At : Json → Nat → String
  | .null, _ => "null"
  | .bool true, _ => "true"
  | .bool false, _ => "false"
  | .num n, _ => intToString n
  | .str s, _ => escapeString s
  | .arr .nil, _ => "[]"
  | .arr (.cons x xs), lvl =>
    "[" ++ nlS ++ stringify2ListItems (.cons x xs) (lvl + 1)
      ++ nlS ++ indentStr lvl ++ "]"
  | .obj .nil, _ => lbraceS ++ rbraceS
  | .obj (.cons k v tl), lvl =>
    lbraceS ++ nlS ++ stringify2ObjItems (.cons k v tl) (lvl + 1)
      ++ nlS ++ indentStr lvl ++ rbraceS

def stringify2ListItems : JsonList → Nat → String
  | .nil, _ => ""
  | .cons x .nil, lvl => indentStr lvl ++ x.stringify2At lvl
  | .cons x (.cons y tl), lvl =>
    indentStr lvl ++ x.stringify2At lvl ++ "," ++ nlS
      ++ stringify2ListItems (.cons y tl) lvl

def stringify2ObjItems : JsonObj → Nat → String
  | .nil, _ => ""
  | .cons k v .nil, lvl =>
    indentStr lvl ++ escapeString k ++ ": " ++ v.stringify2At lvl
  | .cons k v (.cons k2 v2 tl), lvl =>
    indentStr lvl ++ escapeString k ++ ": " ++ v.stringify2At lvl ++ "," ++ nlS
      ++ stringify2ObjItems (.cons k2 v2 tl) lvl

end

/-- `JSON.stringify(v, null, 2)`. -/
def Json.stringify2 (j : Json) : String :=
  j.stringify2At 0

mutual

/-- `JSON.stringify(v)` (compact form, used for the synthetic
`package.json` contribution). -/
def Json.stringifyCompact : Json → String
  | .null => "null"
  | .bool true => "true"
  | .bool false => "false"
  | .num n => intToString n
  | .str s => escapeString s
  | .arr xs => "[" ++ stringifyCompactList xs ++ "]"
  | .obj kvs => lbraceS ++ stringifyCompactObj kvs ++ rbraceS

def stringifyCompactList : JsonList → String
  | .nil => ""
  | .cons x .nil => x.stringifyCompact
  | .cons x (.cons y tl) =>
    x.stringifyCompact ++ "," ++ stringifyCompactList (.cons y tl)

def stringifyCompactObj : JsonObj → String
  | .nil => ""
  | .cons k v .nil => escapeString k ++ ":" ++ v.stringifyCompact
  | .cons k v (.cons k2 v2 tl) =>
    escapeString k ++ ":" ++ v.stringifyCompact ++ ","
      ++ stringifyCompactObj (.cons k2 v2 tl)

end

/- ------------------------------------------------------------------ -/
/- The deepmerge library (deepmerge.all with default options), used by
   the `json` merge method.  With default options cloning is the
   identity on JSON values, the default arrayMerge concatenates, and
   mergeObject copies the target entries and then walks the source
   entries, recursing when the key is present on the target and the
   source value is mergeable (an object or an array).                   -/
/- ------------------------------------------------------------------ -/

/-- `deepmerge(target, source)` when the source is not an array and not an
object: the types match (neither is an array) unless the target is an
array, so mergeObject runs with no source keys and yields the target
entries (or an empty object for a scalar target). -/
def scalarMerge (t s : Json) : Json :=
  match t with
  | .arr _ => s
  | .obj kvs => .obj kvs
  | _ => .obj .nil

mutual

def deepmerge : Json → Json → Json
  | t, .arr xs =>
    (match t with
     | .arr ys => .arr (ys.append xs)
     | _ => .arr xs)
  | t, .obj kvs =>
    (match t with
     | .arr _ => .obj kvs
     | _ => .obj (mergeEntries t t.objEntries kvs))
  | t, .null => scalarMerge t .null
  | t, .bool b => scalarMerge t (.bool b)
  | t, .num n => scalarMerge t (.num n)
  | t, .str s => scalarMerge t (.str s)

def mergeEntries (t : Json) (dest : JsonObj) : JsonObj → JsonObj
  | .nil => dest
  | .cons k sv tl =>
    mergeEntries t
      (dest.setKey k
        (if t.hasKey k && isMergeable sv then deepmerge (t.getOr k) sv else sv))
      tl

end

/-- `deepmerge.all(sources)`: a left fold of deepmerge starting from the
empty object. -/
def deepmergeAll (sources : List Json) : Json :=
  sources.foldl deepmerge (.obj .nil)

/-- `Object.assign({}, ...sources)` on parsed JSON values, used by the
`json-shallow` merge method (index keys of arrays and strings are not
modelled; the tool only applies this to objects). -/
def assignEntries (dest : JsonObj) : JsonObj → JsonObj
  | .nil => dest
  | .cons k v tl => assignEntries (dest.setKey k v) tl

def assignAll (sources : List Json) : Json :=
  .obj (sources.foldl (fun acc j => assignEntries acc j.objEntries) .nil)

/- ------------------------------------------------------------------ -/
/- sortByKeys and the package.json dependency re-sorting of run().      -/
/- ------------------------------------------------------------------ -/

def rebuildSorted (j : Json) : List String → JsonObj
  | [] => .nil
  | k :: ks => .cons k (j.getOr k) (rebuildSorted j ks)

/-- `sortByKeys(src)`: `Object.keys(src).sort().reduce(...)`.  For a
non-object value `Object.keys` is empty and the result is the empty
object (the index keys of arrays and strings are not modelled; the tool
only reaches this function on dependency maps). -/
def sortByKeys (j : Json) : Json :=
  match j with
  | .obj kvs => .obj (rebuildSorted j (sortStrings kvs.keys))
  | _ => .obj .nil

/-- JavaScript property read `j[k]` (undefined modelled as `none`). -/
def propGet (j : Json) (k : String) : Option Json :=
  match j with
  | .obj kvs => kvs.lookup k
  | _ => none

/-- JavaScript property write `j[k] = v` (a no-op on non-objects, as in
non-strict mode). -/
def propSet (j : Json) (k : String) (v : Json) : Json :=
  match j with
  | .obj kvs => .obj (kvs.setKey k v)
  | _ => j

def truthyOpt : Option Json → Bool
  | none => false
  | some v => truthy v

/-- One of the four `if (fileSourceJson.X) fileSourceJson.X = sortByKeys(...)`
steps of run(). -/
def sortDepStep (j : Json) (k : String) : Json :=
  if truthyOpt (propGet j k) then
    propSet j k (sortByKeys ((propGet j k).getD .null))
  else j

def depKeys : List String :=
  ["dependencies", "devDependencies", "peerDependencies", "optionalDependencies"]

/-- The post-merge dependency re-sorting that run() applies to the merged
`package.json`. -/
def sortDeps (j : Json) : Json :=
  sortDepStep
    (sortDepStep
      (sortDepStep
        (sortDepStep j "dependencies")
        "devDependencies")
      "peerDependencies")
    "optionalDependencies"

/- ------------------------------------------------------------------ -/
/- Data model of the main module.                                      -/
/- ------------------------------------------------------------------ -/

structure Config where
  outDir : Option String := none
  scope : Option String := none
deriving DecidableEq

structure SourceFileInfo where
  variant : String
  sourceText : String
deriving DecidableEq

structure MergedFileInfo where
  contributingVariants : List String
  sourceText : String
deriving DecidableEq

structure TemplateVariant where
  displayName : String
  description : Option String := none
  required : Option Bool := none
  scripts : Option (List String) := none
  files : List String
deriving DecidableEq

/-- A parsed and schema-validated template definition.  The schema does
not require the top-level `files` key nor the `mergeMethod` key of a
`files` entry, so both are optional here (an absent `files` object makes
the merge-method read throw a TypeError at merge time). -/
structure Template where
  displayName : String
  description : Option String := none
  variants : List (String × TemplateVariant)
  files : Option (List (String × Option String)) := none
deriving DecidableEq

structure LoadedTemplate extends Template where
  id : String
  directory : String
  variantFiles : List (String × List (String × String))
deriving DecidableEq

/-- `getFullName`: prepend the configured scope when it is truthy. -/
def getFullName (config : Config) (input : String) : String :=
  match config.scope with
  | some s => if s = "" then input else s ++ "/" ++ input
  | none => input

/-- `mergeMethod.startsWith("custom:")`. -/
def isCustomMergeMethod (mergeMethod : String) : Bool :=
  strStartsWith mergeMethod "custom:"

/-- `getVariantIdsWithRequired`: the chosen ids followed by every variant
whose `required` flag is truthy, in template-definition order. -/
def getVariantIdsWithRequired (variantIds : List String)
    (template : LoadedTemplate) : List String :=
  variantIds
    ++ (template.variants.filter (fun kv => kv.2.required = some true)).map
      (fun kv => kv.1)

/- ------------------------------------------------------------------ -/
/- mergeFiles.                                                          -/
/- ------------------------------------------------------------------ -/

/-- The custom-merger result schema (src/schemas/custom-result.ts): a bare
string, or an object with a string `sourceText` and an array-of-strings
`contributingVariants` (extra keys are allowed by the schema). -/
def allStrings : JsonList → Bool
  | .nil => true
  | .cons (.str _) tl => allStrings tl
  | .cons _ _ => false

def validCustomResult : Json → Bool
  | .str _ => true
  | .obj kvs =>
    (match kvs.lookup "sourceText" with
     | some (.str _) => true
     | _ => false)
    && (match kvs.lookup "contributingVariants" with
        | some (.arr xs) => allStrings xs
        | _ => false)
  | _ => false

def strListOfJson : JsonList → List String
  | .nil => []
  | .cons (.str s) tl => s :: strListOfJson tl
  | .cons _ tl => "" :: strListOfJson tl

def customResultText (j : Json) : String :=
  match j.objEntries.lookup "sourceText" with
  | some (.str s) => s
  | _ => ""

def customResultVariants (j : Json) : List String :=
  match j.objEntries.lookup "contributingVariants" with
  | some (.arr xs) => strListOfJson xs
  | _ => []

/-- The generic lookup on the insertion-ordered association lists used for
JavaScript `Record` values. -/
def lookupAssoc {α : Type} : List (String × α) → String → Option α
  | [], _ => none
  | kv :: rest, key => if kv.1 = key then some kv.2 else lookupAssoc rest key

/-- The map of `JSON.parse` over the source texts; a parse failure throws
and aborts the merge. -/
def parseAll : List SourceFileInfo → Except String (List Json)
  | [] => .ok []
  | s :: rest =>
    match Json.parse s.sourceText with
    | none => .error "SyntaxError: Unexpected token in JSON"
    | some j =>
      match parseAll rest with
      | .ok js => .ok (j :: js)
      | .error e => .error e

def typeErrorReading (path : String) : String :=
  "TypeError: Cannot read properties of undefined (reading " ++ path ++ ")"

/-- `mergeFiles(template, path, sources)`.  Dynamic import of a custom
merger module is modelled by the `imports` map from module paths to merge
functions (`none` models a missing module or a default export that is not
a function); a custom merge function receives the ordered sources and
returns a JSON-modelled JavaScript value. -/
def mergeFiles (imports : String → Option (List SourceFileInfo → Json))
    (template : LoadedTemplate) (path : String)
    (sources : List SourceFileInfo) : Except String MergedFileInfo :=
  match sources with
  | [] => .error "Sources length is zero. This should not happen D:"
  | [s] => .ok ⟨[s.variant], s.sourceText⟩
  | s1 :: s2 :: rest =>
    match template.files with
    | none => .error (typeErrorReading path)
    | some filesCfg =>
      match (lookupAssoc filesCfg path).bind (fun m => m) with
      | none => .error ("Missing merge method for " ++ path)
      | some mergeMethod =>
        if mergeMethod = "" then .error ("Missing merge method for " ++ path)
        else if mergeMethod = "json" then
          match parseAll (s1 :: s2 :: rest) with
          | .error e => .error e
          | .ok jsonSources =>
            .ok ⟨(s1 :: s2 :: rest).map (fun s => s.variant),
              Json.stringify2 (deepmergeAll jsonSources)⟩
        else if mergeMethod = "json-shallow" then
          match parseAll (s1 :: s2 :: rest) with
          | .error e => .error e
          | .ok jsonSources =>
            .ok ⟨(s1 :: s2 :: rest).map (fun s => s.variant),
              Json.stringify2 (assignAll jsonSources)⟩
        else if mergeMethod = "last" then
          let last := (s1 :: s2 :: rest).getLast (by simp)
          .ok ⟨[last.variant], last.sourceText⟩
        else if isCustomMergeMethod mergeMethod then
          let customMerger := strDrop mergeMethod 7
          let modulePath := template.directory ++ "/" ++ customMerger
          match imports modulePath with
          | none =>
            .error ("Invalid custom merger `" ++ customMerger
              ++ "`: default export is not a function")
          | some merge =>
            let result := merge (s1 :: s2 :: rest)
            if validCustomResult result then
              match result with
              | .str text =>
                .ok ⟨(s1 :: s2 :: rest).map (fun s => s.variant), text⟩
              | _ =>
                .ok ⟨customResultVariants result, customResultText result⟩
            else
              .error ("Invalid custom merger `" ++ customMerger
                ++ "`: invalid result")
        else .error ("Invalid merge method for " ++ path)

/- ------------------------------------------------------------------ -/
/- The collection and post-processing logic of run() (lines 720-795 of
   the main module), without the filesystem writes.                     -/
/- ------------------------------------------------------------------ -/

/-- `files.get(path) ?? []` followed by `arr.push(...)` on the insertion
ordered map of output paths: append the contribution to the entry for
`path`, creating the entry at the end of the map on first use. -/
def addContribution (m : List (String × List SourceFileInfo)) (path : String)
    (c : SourceFileInfo) : List (String × List SourceFileInfo) :=
  match m with
  | [] => [(path, [c])]
  | (p, cs) :: rest =>
    if p = path then (p, cs ++ [c]) :: rest
    else (p, cs) :: addContribution rest path c

/-- The inner loop of the collection step: all files of one variant. -/
def collectVariantFiles (m : List (String × List SourceFileInfo))
    (variantName : String) (vfiles : List (String × String)) :
    List (String × List SourceFileInfo) :=
  vfiles.foldl (fun m kv => addContribution m kv.1 ⟨variantName, kv.2⟩) m

/-- The collection step of run(): iterate the variant catalog in its
stored (template-definition) order, keep the variants whose id is in the
active list, and append each of their files keyed by output path. -/
def collectFiles (template : LoadedTemplate) (activeIds : List String) :
    List (String × List SourceFileInfo) :=
  (template.variantFiles.filter (fun kv => activeIds.contains kv.1)).foldl
    (fun m kv => collectVariantFiles m kv.1 kv.2) []

/-- The synthetic first contribution that run() unshifts for the path
`package.json`. -/
def syntheticContribution (config : Config) (packageName : String) :
    SourceFileInfo :=
  ⟨"internal.node",
    Json.stringifyCompact (.obj
      (.cons "name" (.str (getFullName config packageName))
        (.cons "version" (.str "0.1.0") .nil)))⟩

/-- The `sources.unshift(...)` step of run(): the synthetic contribution
is prepended when (and only when) the entry being processed is
`package.json`. -/
def entrySources (config : Config) (packageName : String) (path : String)
    (sources : List SourceFileInfo) : List SourceFileInfo :=
  if path = "package.json" then
    syntheticContribution config packageName :: sources
  else sources

/-- Processing of one entry of the collected file map: merge, then for
`package.json` re-parse, re-sort the dependency maps and re-serialize. -/
def processEntry (imports : String → Option (List SourceFileInfo → Json))
    (template : LoadedTemplate) (config : Config) (packageName : String)
    (entry : String × List SourceFileInfo) :
    Except String (String × MergedFileInfo) :=
  match mergeFiles imports template entry.1
      (entrySources config packageName entry.1 entry.2) with
  | .error e => .error e
  | .ok fileSource =>
    if entry.1 = "package.json" then
      match Json.parse fileSource.sourceText with
      | none => .error "SyntaxError: Unexpected token in JSON"
      | some .null => .error "TypeError: Cannot read properties of null"
      | some j =>
        .ok (entry.1,
          ⟨fileSource.contributingVariants, Json.stringify2 (sortDeps j)⟩)
    else .ok (entry.1, fileSource)

def processEntries (imports : String → Option (List SourceFileInfo → Json))
    (template : LoadedTemplate) (config : Config) (packageName : String) :
    List (String × List SourceFileInfo) →
    Except String (List (String × MergedFileInfo))
  | [] => .ok []
  | entry :: rest =>
    match processEntry imports template config packageName entry with
    | .error e => .error e
    | .ok r =>
      match processEntries imports template config packageName rest with
      | .error e => .error e
      | .ok rs => .ok (r :: rs)

/-- The per-file pipeline of run(): collect the contributions of the
active variants, then merge and post-process every collected path in
map order. -/
def processFiles (imports : String → Option (List SourceFileInfo → Json))
    (template : LoadedTemplate) (config : Config) (packageName : String)
    (activeIds : List String) :
    Except String (List (String × MergedFileInfo)) :=
  processEntries imports template config packageName
    (collectFiles template activeIds)

/- ------------------------------------------------------------------ -/
/- The template schema (src/schemas/template.ts) as a validating
   extraction: `templateOfJson` succeeds exactly on the documents the
   ajv-compiled schema accepts, and produces the parsed Template.        -/
/- ------------------------------------------------------------------ -/

def asString : Json → Option String
  | .str s => some s
  | _ => none

def asBool : Json → Option Bool
  | .bool b => some b
  | _ => none

def asStrList : JsonList → Option (List String)
  | .nil => some []
  | .cons (.str s) tl =>
    match asStrList tl with
    | some rest => some (s :: rest)
    | none => none
  | .cons _ _ => none

def asStrArray : Json → Option (List String)
  | .arr xs => asStrList xs
  | _ => none

/-- An optional, type-checked schema property: absent is fine, present
with the wrong type is a validation failure. -/
def optField {α : Type} (o : JsonObj) (key : String) (conv : Json → Option α) :
    Option (Option α) :=
  match o.lookup key with
  | none => some none
  | some v =>
    match conv v with
    | some a => some (some a)
    | none => none

/-- One variant definition: `displayName` and `files` are required, the
rest is optional but typed. -/
def variantOfJson : Json → Option TemplateVariant
  | .obj o =>
    match (o.lookup "displayName").bind asString with
    | none => none
    | some dn =>
      match (o.lookup "files").bind asStrArray with
      | none => none
      | some files =>
        match optField o "description" asString with
        | none => none
        | some desc =>
          match optField o "required" asBool with
          | none => none
          | some req =>
            match optField o "scripts" asStrArray with
            | none => none
            | some scripts => some ⟨dn, desc, req, scripts, files⟩
  | _ => none

def variantsOfObj : JsonObj → Option (List (String × TemplateVariant))
  | .nil => some []
  | .cons k v tl =>
    match variantOfJson v with
    | none => none
    | some tv =>
      match variantsOfObj tl with
      | none => none
      | some rest => some ((k, tv) :: rest)

/-- A merge method string accepted by the schema: the three constants or
anything matching the pattern `^custom:`. -/
def validMergeMethodStr (s : String) : Bool :=
  s = "json" || s = "json-shallow" || s = "last" || strStartsWith s "custom:"

/-- One `files` entry: an object whose `mergeMethod`, when present, must
be one of the accepted strings. -/
def fileCfgOfJson : Json → Option (Option String)
  | .obj o =>
    match o.lookup "mergeMethod" with
    | none => some none
    | some v =>
      match asString v with
      | some s => if validMergeMethodStr s then some (some s) else none
      | none => none
  | _ => none

def filesOfObj : JsonObj → Option (List (String × Option String))
  | .nil => some []
  | .cons k v tl =>
    match fileCfgOfJson v with
    | none => none
    | some cfg =>
      match filesOfObj tl with
      | none => none
      | some rest => some ((k, cfg) :: rest)

/-- Validation and extraction of a whole template definition:
`displayName` and `variants` are required, `variants` must have at least
one entry, and every nested property is type-checked as in the schema. -/
def templateOfJson : Json → Option Template
  | .obj o =>
    match (o.lookup "displayName").bind asString with
    | none => none
    | some dn =>
      match optField o "description" asString with
      | none => none
      | some desc =>
        match o.lookup "variants" with
        | none => none
        | some (.obj .nil) => none
        | some (.obj (.cons k v tl)) =>
          match variantsOfObj (.cons k v tl) with
          | none => none
          | some variants =>
            match optField o "files" (fun fj =>
                match fj with
                | .obj fo => filesOfObj fo
                | _ => none) with
            | none => none
            | some files => some ⟨dn, desc, variants, files⟩
        | some _ => none
  | _ => none

/- ------------------------------------------------------------------ -/
/- readTemplates over a model of the templates directory tree.          -/
/- ------------------------------------------------------------------ -/

mutual

inductive FsEntry where
  | file (content : String) : FsEntry
  | dir (entries : FsEntries) : FsEntry

inductive FsEntries where
  | nil : FsEntries
  | cons (name : String) (entry : FsEntry) (tl : FsEntries) : FsEntries

end

deriving instance DecidableEq for FsEntry, FsEntries

def fsLookup : FsEntries → String → Option FsEntry
  | .nil, _ => none
  | .cons n e tl, name => if n = name then some e else fsLookup tl name

/-- Resolution of a relative path (already split on the separator)
against a directory listing. -/
def fsResolve (entries : FsEntries) : List String → Option FsEntry
  | [] => some (.dir entries)
  | [n] => fsLookup entries n
  | n :: rest =>
    match fsLookup entries n with
    | some (.dir es) => fsResolve es rest
    | _ => none

def exOk {α : Type} : Except String α → Bool
  | .ok _ => true
  | .error _ => false

/-- The eager read of one variant's declared files (the body of the
`variant.files.map` in readTemplates): each declared path must exist, and
its full text is read. -/
def loadVariantFiles (label : String) (ventries : FsEntries) :
    List String → Except String (List (String × String))
  | [] => .ok []
  | p :: rest =>
    match fsResolve ventries (splitPath p) with
    | some (.file content) =>
      (match loadVariantFiles label ventries rest with
       | .ok fs => .ok ((p, content) :: fs)
       | .error e => .error e)
    | some (.dir _) => .error "EISDIR: illegal operation on a directory, read"
    | none =>
      .error ("Invalid " ++ label ++ ": the file " ++ p ++ " does not exist")

def setKeyAssoc {α : Type} : List (String × α) → String → α → List (String × α)
  | [], key, v => [(key, v)]
  | kv :: rest, key, v =>
    if kv.1 = key then (kv.1, v) :: rest
    else kv :: setKeyAssoc rest key v

/-- `Object.fromEntries`: sequential insertion, later values win. -/
def fromEntriesAssoc {α : Type} (l : List (String × α)) : List (String × α) :=
  l.foldl (fun acc kv => setKeyAssoc acc kv.1 kv.2) []

/-- The variant loop of readTemplates: duplicate display name check,
variant directory checks, then the declared files are read. -/
def loadVariants (templateId : String) (tentries : FsEntries) :
    List (String × TemplateVariant) → List String →
    Except String (List (String × List (String × String)))
  | [], _ => .ok []
  | (vid, v) :: rest, usedNames =>
    let label := "variant `" ++ vid ++ "` for template `" ++ templateId ++ "`"
    if usedNames.contains v.displayName then
      .error ("Invalid " ++ label ++ ": the display name is already being used")
    else
      match fsLookup tentries vid with
      | none => .error ("Invalid " ++ label ++ ": its directory does not exist")
      | some (.file _) =>
        .error ("Invalid " ++ label ++ ": its directory is not a directory")
      | some (.dir ventries) =>
        match loadVariantFiles label ventries v.files with
        | .error e => .error e
        | .ok files =>
          match loadVariants templateId tentries rest
              (v.displayName :: usedNames) with
          | .error e => .error e
          | .ok restRes => .ok ((vid, fromEntriesAssoc files) :: restRes)

/-- Loading of a single template directory (one iteration of the
readTemplates loop). -/
def loadTemplate (dirPath : String) (id : String) (entry : FsEntry)
    (usedDisplayNames : List String) : Except String LoadedTemplate :=
  match entry with
  | .file _ => .error ("invalid template " ++ id ++ ": not a directory")
  | .dir tentries =>
    match fsLookup tentries "template.json" with
    | none =>
      .error ("Invalid template `" ++ id ++ "`: template.json does not exist")
    | some (.dir _) => .error "EISDIR: illegal operation on a directory, read"
    | some (.file src) =>
      match Json.parse src with
      | none => .error "SyntaxError: Unexpected token in JSON"
      | some cfgJson =>
        match templateOfJson cfgJson with
        | none =>
          .error ("Invalid template `" ++ id ++ "`: invalid configuration")
        | some cfg =>
          if usedDisplayNames.contains cfg.displayName then
            .error ("Invalid template `" ++ id ++ "`: duplicate display name")
          else
            match loadVariants id tentries cfg.variants [] with
            | .error e => .error e
            | .ok variantFiles =>
              .ok { cfg with
                id := id
                directory := dirPath ++ "/" ++ id
                variantFiles := variantFiles }

def readTemplatesGo (dirPath : String) :
    FsEntries → List String → Except String (List (String × LoadedTemplate))
  | .nil, _ => .ok []
  | .cons id entry rest, usedNames =>
    match loadTemplate dirPath id entry usedNames with
    | .error e => .error e
    | .ok lt =>
      match readTemplatesGo dirPath rest (lt.displayName :: usedNames) with
      | .error e => .error e
      | .ok restRes => .ok ((id, lt) :: restRes)

/-- `readTemplates`: load every template directory, failing fatally on the
first invalid one. -/
def readTemplates (dirPath : String) (entries : FsEntries) :
    Except String (List (String × LoadedTemplate)) :=
  readTemplatesGo dirPath entries []

/- ------------------------------------------------------------------ -/
/- Concrete fixtures used by the witnesses and counterexamples.         -/
/- ------------------------------------------------------------------ -/

deriving instance DecidableEq for Except

/-- An import map with no custom merger modules. -/
def noImports : String → Option (List SourceFileInfo → Json) :=
  fun _ => none

def cfgPlain : Config := {}

/-- A template whose single variant supplies only `readme.md`. -/
def tmplNoPkg : LoadedTemplate :=
  { displayName := "T"
    variants := [("v1", ⟨"V1", none, none, none, ["readme.md"]⟩)]
    files := some []
    id := "t"
    directory := "templates/t"
    variantFiles := [("v1", [("readme.md", "hello")])] }

/-- A template with one required variant `a`. -/
def tmplReq : LoadedTemplate :=
  { displayName := "T"
    variants := [("a", ⟨"A", none, some true, none, ["f"]⟩)]
    files := none
    id := "t"
    directory := "templates/t"
    variantFiles := [("a", [("f", "x")])] }

def srcArrOne : String :=
  Json.stringifyCompact (.obj (.cons "a" (.arr (.cons (.num 1) .nil)) .nil))

def srcArrTwo : String :=
  Json.stringifyCompact (.obj (.cons "a" (.arr (.cons (.num 2) .nil)) .nil))

/-- A template whose two variants both supply `a.json`, merged with the
`json` method. -/
def tmplJsonMerge : LoadedTemplate :=
  { displayName := "T"
    variants :=
      [("v1", ⟨"V1", none, none, none, ["a.json"]⟩),
       ("v2", ⟨"V2", none, none, none, ["a.json"]⟩)]
    files := some [("a.json", some "json")]
    id := "t"
    directory := "templates/t"
    variantFiles :=
      [("v1", [("a.json", srcArrOne)]),
       ("v2", [("a.json", srcArrTwo)])] }

/-- A template declaring a merge method for `other.txt` only. -/
def tmplNoMethod : LoadedTemplate :=
  { displayName := "T"
    variants :=
      [("v1", ⟨"V1", none, none, none, ["x.txt"]⟩),
       ("v2", ⟨"V2", none, none, none, ["x.txt"]⟩)]
    files := some [("other.txt", some "last")]
    id := "t"
    directory := "templates/t"
    variantFiles :=
      [("v1", [("x.txt", "a")]), ("v2", [("x.txt", "b")])] }

/- ------------------------------------------------------------------ -/
/- Claim C6.                                                            -/
/- ------------------------------------------------------------------ -/

/-- C6: a path with exactly one contribution merges to that
contribution's text verbatim, crediting exactly that variant, without any
merge-method lookup: the result is the same for every `files`
configuration, including templates that declare no merge method for the
path. -/
theorem claim6_single_contribution_verbatim
    (imports : String → Option (List SourceFileInfo → Json))
    (template : LoadedTemplate) (path : String) (s : SourceFileInfo) :
    mergeFiles imports template path [s] = .ok ⟨[s.variant], s.sourceText⟩
    ∧ ∀ filesCfg : Option (List (String × Option String)),
        mergeFiles imports { template with files := filesCfg } path [s]
          = .ok ⟨[s.variant], s.sourceText⟩ :=
  ⟨rfl, fun _ => rfl⟩

/- ------------------------------------------------------------------ -/
/- Claim C7.                                                            -/
/- ------------------------------------------------------------------ -/

/-- C7: with two or more contributions and no merge method declared for
the path in the template's files configuration, merging fails with an
error naming the path. -/
theorem claim7_missing_merge_method_fatal
    (imports : String → Option (List SourceFileInfo → Json))
    (template : LoadedTemplate) (path : String)
    (s1 s2 : SourceFileInfo) (rest : List SourceFileInfo)
    (filesCfg : List (String × Option String))
    (hf : template.files = some filesCfg)
    (hm : (lookupAssoc filesCfg path).bind (fun m => m) = none) :
    mergeFiles imports template path (s1 :: s2 :: rest)
      = .error ("Missing merge method for " ++ path) := by
  simp only [mergeFiles, hf, hm]

/-- Witness for C7 at a concrete input. -/
theorem claim7_missing_merge_method_fatal_witness :
    mergeFiles noImports tmplNoMethod "x.txt" [⟨"v1", "a"⟩, ⟨"v2", "b"⟩]
      = .error ("Missing merge method for " ++ "x.txt") :=
  claim7_missing_merge_method_fatal noImports tmplNoMethod "x.txt"
    ⟨"v1", "a"⟩ ⟨"v2", "b"⟩ [] [("other.txt", some "last")] rfl (by decide)

/- ------------------------------------------------------------------ -/
/- Claim C3.                                                            -/
/- ------------------------------------------------------------------ -/

/-- C3 counterexample: the computed active set is not deduplicated — a
chosen id that names a required variant appears twice. -/
theorem claim3_counterexample_no_dedup :
    getVariantIdsWithRequired ["a"] tmplReq = ["a", "a"]
    ∧ ¬ (getVariantIdsWithRequired ["a"] tmplReq).Nodup := by
  decide

/-- The required variant ids of a template, in template-definition
order. -/
def requiredVariantIds (template : LoadedTemplate) : List String :=
  (template.variants.filter (fun kv => kv.2.required = some true)).map
    (fun kv => kv.1)

/-- C3 (amended): the active set is the user's chosen ids followed by the
required variant ids in template-definition order (no deduplication);
every chosen id and every required variant is present. -/
theorem claim3_active_set_amended (variantIds : List String)
    (template : LoadedTemplate) :
    getVariantIdsWithRequired variantIds template
      = variantIds ++ requiredVariantIds template
    ∧ (∀ x ∈ variantIds, x ∈ getVariantIdsWithRequired variantIds template)
    ∧ (∀ kv ∈ template.variants, kv.2.required = some true →
        kv.1 ∈ getVariantIdsWithRequired variantIds template) := by
  refine ⟨rfl, ?_, ?_⟩
  · intro x hx
    exact List.mem_append_left _ hx
  · intro kv hkv hreq
    refine List.mem_append_right _ ?_
    exact List.mem_map.mpr ⟨kv, List.mem_filter.mpr ⟨hkv, by simp [hreq]⟩, rfl⟩

/-- Witness for C3 (amended) at a concrete input. -/
theorem claim3_active_set_amended_witness :
    getVariantIdsWithRequired ["b"] tmplReq = ["b"] ++ requiredVariantIds tmplReq
    ∧ "b" ∈ getVariantIdsWithRequired ["b"] tmplReq
    ∧ "a" ∈ getVariantIdsWithRequired ["b"] tmplReq := by
  obtain ⟨h1, h2, h3⟩ := claim3_active_set_amended ["b"] tmplReq
  exact ⟨h1, h2 "b" (by decide),
    h3 ("a", ⟨"A", none, some true, none, ["f"]⟩) (by decide) rfl⟩

/- ------------------------------------------------------------------ -/
/- Claim C1.                                                            -/
/- ------------------------------------------------------------------ -/

/-- C1 counterexample: in a run whose active variants supply no
`package.json`, no `package.json` output (and hence no synthetic
contribution) is produced at all — the loop only visits collected
paths. -/
theorem claim1_counterexample_no_package_json :
    processFiles noImports tmplNoPkg cfgPlain "pkg" ["v1"]
      = .ok [("readme.md", ⟨["v1"], "hello"⟩)]
    ∧ (collectFiles tmplNoPkg ["v1"]).map Prod.fst = ["readme.md"] := by
  decide

/-- C1 (amended): whenever `package.json` was collected from at least one
active variant, the merge input for it is the synthetic contribution —
variant `internal.node`, source text the compact JSON object with the
scope-prefixed package name and version 0.1.0 — prepended before all
variant-supplied contributions. -/
theorem claim1_package_json_synthetic_amended
    (config : Config) (packageName : String) (template : LoadedTemplate)
    (activeIds : List String) (srcs : List SourceFileInfo)
    (_hmem : ("package.json", srcs) ∈ collectFiles template activeIds) :
    entrySources config packageName "package.json" srcs
      = syntheticContribution config packageName :: srcs
    ∧ (syntheticContribution config packageName).variant = "internal.node"
    ∧ (syntheticContribution config packageName).sourceText
      = Json.stringifyCompact (.obj
          (.cons "name" (.str (getFullName config packageName))
            (.cons "version" (.str "0.1.0") .nil))) := by
  refine ⟨?_, rfl, rfl⟩
  simp [entrySources]

/-- A template whose single variant supplies `package.json`. -/
def tmplPkg : LoadedTemplate :=
  { displayName := "T"
    variants := [("v1", ⟨"V1", none, none, none, ["package.json"]⟩)]
    files := some []
    id := "t"
    directory := "templates/t"
    variantFiles :=
      [("v1",
        [("package.json",
          Json.stringifyCompact (.obj (.cons "license" (.str "MIT") .nil)))])] }

/-- Witness for C1 (amended) at a concrete input. -/
theorem claim1_package_json_synthetic_amended_witness :
    entrySources cfgPlain "pkg" "package.json"
        [⟨"v1", Json.stringifyCompact (.obj (.cons "license" (.str "MIT") .nil))⟩]
      = syntheticContribution cfgPlain "pkg"
        :: [⟨"v1", Json.stringifyCompact (.obj (.cons "license" (.str "MIT") .nil))⟩]
    ∧ (syntheticContribution cfgPlain "pkg").variant = "internal.node"
    ∧ (syntheticContribution cfgPlain "pkg").sourceText
      = Json.stringifyCompact (.obj
          (.cons "name" (.str (getFullName cfgPlain "pkg"))
            (.cons "version" (.str "0.1.0") .nil))) :=
  claim1_package_json_synthetic_amended cfgPlain "pkg" tmplPkg ["v1"]
    [⟨"v1", Json.stringifyCompact (.obj (.cons "license" (.str "MIT") .nil))⟩]
    (by decide)

/- ------------------------------------------------------------------ -/
/- Claim C2 counterexample.                                             -/
/- ------------------------------------------------------------------ -/

/-- C2 counterexample: under the `json` merge method conflicting arrays
are concatenated by the deepmerge library, not replaced by the later
source. -/
theorem claim2_counterexample_arrays_concatenated :
    mergeFiles noImports tmplJsonMerge "a.json" [⟨"v1", srcArrOne⟩, ⟨"v2", srcArrTwo⟩]
      = .ok ⟨["v1", "v2"],
          Json.stringify2 (.obj
            (.cons "a" (.arr (.cons (.num 1) (.cons (.num 2) .nil))) .nil))⟩
    ∧ mergeFiles noImports tmplJsonMerge "a.json" [⟨"v1", srcArrOne⟩, ⟨"v2", srcArrTwo⟩]
      ≠ .ok ⟨["v1", "v2"],
          Json.stringify2 (.obj (.cons "a" (.arr (.cons (.num 2) .nil)) .nil))⟩ := by
  decide

/- ------------------------------------------------------------------ -/
/- Lemmas about JsonObj and the deepmerge recursion.                    -/
/- ------------------------------------------------------------------ -/

theorem JsonObj.lookup_setKey : ∀ (o : JsonObj) (key : String) (v : Json)
    (q : String),
    (o.setKey key v).lookup q = if key = q then some v else o.lookup q
  | .nil, key, v, q => by
    simp only [JsonObj.setKey, JsonObj.lookup]
  | .cons k0 v0 tl, key, v, q => by
    by_cases h0 : k0 = key
    · subst h0
      simp only [JsonObj.setKey, if_pos rfl, JsonObj.lookup]
      by_cases hq : k0 = q <;> simp [hq]
    · simp only [JsonObj.setKey, if_neg h0, JsonObj.lookup,
        JsonObj.lookup_setKey tl key v q]
      by_cases hq : key = q
      · have hk0q : ¬ k0 = q := fun h => h0 (h.trans hq.symm)
        simp [hq, hk0q]
      · simp [hq]

theorem JsonObj.lookup_eq_none_of_not_mem :
    ∀ (o : JsonObj) (k : String), k ∉ o.keys → o.lookup k = none
  | .nil, _, _ => rfl
  | .cons k0 v0 tl, k, h => by
    simp only [JsonObj.keys, List.mem_cons, not_or] at h
    have hne : ¬ k0 = k := fun he => h.1 he.symm
    simp only [JsonObj.lookup, if_neg hne,
      JsonObj.lookup_eq_none_of_not_mem tl k h.2]

/-- The key-level behaviour of the deepmerge object walk: a key present
in the source wins (recursively merged when it is also on the target and
the source value is mergeable), a key absent from the source keeps the
destination value. -/
theorem mergeEntries_lookup : ∀ (t : Json) (s : JsonObj), s.keys.Nodup →
    ∀ (d : JsonObj) (k : String),
    (mergeEntries t d s).lookup k
      = match s.lookup k with
        | some sv =>
          some (if t.hasKey k && isMergeable sv then deepmerge (t.getOr k) sv
            else sv)
        | none => d.lookup k
  | t, .nil, _, d, k => by
    simp [mergeEntries, JsonObj.lookup]
  | t, .cons k0 sv0 tl, hs, d, k => by
    simp only [JsonObj.keys, List.nodup_cons] at hs
    rw [mergeEntries]
    rw [mergeEntries_lookup t tl hs.2 _ k]
    by_cases hk : k0 = k
    · subst hk
      have htl : tl.lookup k0 = none :=
        JsonObj.lookup_eq_none_of_not_mem tl k0 hs.1
      simp [htl, JsonObj.lookup_setKey, JsonObj.lookup]
    · simp only [JsonObj.lookup, if_neg hk]
      cases htl : tl.lookup k with
      | some sv => simp
      | none => simp [JsonObj.lookup_setKey, if_neg hk]

theorem parseAll_of_isSome (sources : List SourceFileInfo)
    (hp : ∀ s ∈ sources, (Json.parse s.sourceText).isSome) :
    parseAll sources
      = .ok (sources.map (fun s => (Json.parse s.sourceText).getD .null)) := by
  induction sources with
  | nil => rfl
  | cons s rest ih =>
    have hs := hp s (by simp)
    cases hps : Json.parse s.sourceText with
    | none => rw [hps] at hs; simp at hs
    | some j =>
      simp only [parseAll, hps]
      rw [ih (fun x hx => hp x (by simp [hx]))]
      simp [hps]

/- ------------------------------------------------------------------ -/
/- Claim C2 (amended).                                                  -/
/- ------------------------------------------------------------------ -/

/-- C2 (amended): under the `json` method the contributions are parsed
and deep-merged left to right with `deepmerge.all`, the result is
serialized with 2-space indentation and all contributors are credited;
on conflicting keys the merge recurses when the source value is an
object or array also present on the target, any other conflicting value
is won by the later source, and conflicting arrays are concatenated (not
replaced). -/
theorem claim2_json_merge_amended
    (imports : String → Option (List SourceFileInfo → Json))
    (template : LoadedTemplate) (path : String)
    (s1 s2 : SourceFileInfo) (rest : List SourceFileInfo)
    (filesCfg : List (String × Option String))
    (hf : template.files = some filesCfg)
    (hm : (lookupAssoc filesCfg path).bind (fun m => m) = some "json")
    (hp : ∀ s ∈ (s1 :: s2 :: rest : List SourceFileInfo),
      ∃ kvs : JsonObj, Json.parse s.sourceText = some (.obj kvs)) :
    mergeFiles imports template path (s1 :: s2 :: rest)
      = .ok ⟨(s1 :: s2 :: rest).map (fun s => s.variant),
          Json.stringify2 (deepmergeAll ((s1 :: s2 :: rest).map
            (fun s => (Json.parse s.sourceText).getD .null)))⟩
    ∧ (∀ (t s : JsonObj) (k : String), s.keys.Nodup →
        (deepmerge (.obj t) (.obj s)).objEntries.lookup k
          = match s.lookup k with
            | some sv =>
              some (if (Json.obj t).hasKey k && isMergeable sv then
                  deepmerge ((Json.obj t).getOr k) sv
                else sv)
            | none => t.lookup k)
    ∧ (∀ xs ys : JsonList, deepmerge (.arr xs) (.arr ys) = .arr (xs.append ys)) := by
  refine ⟨?_, ?_, fun xs ys => rfl⟩
  · have hp' : ∀ s ∈ (s1 :: s2 :: rest : List SourceFileInfo),
        (Json.parse s.sourceText).isSome := by
      intro s hsm
      obtain ⟨kvs, hk⟩ := hp s hsm
      simp [hk]
    simp only [mergeFiles, hf, hm]
    rw [parseAll_of_isSome _ hp']
    simp
  · intro t s k hs
    exact mergeEntries_lookup (.obj t) s hs t k

/-- Witness for C2 (amended) at a concrete input. -/
theorem claim2_json_merge_amended_witness :
    mergeFiles noImports tmplJsonMerge "a.json"
        [⟨"v1", srcArrOne⟩, ⟨"v2", srcArrTwo⟩]
      = .ok ⟨["v1", "v2"],
          Json.stringify2 (deepmergeAll
            (([⟨"v1", srcArrOne⟩, ⟨"v2", srcArrTwo⟩] : List SourceFileInfo).map
              (fun s => (Json.parse s.sourceText).getD .null)))⟩ := by
  have h := claim2_json_merge_amended noImports tmplJsonMerge "a.json"
    ⟨"v1", srcArrOne⟩ ⟨"v2", srcArrTwo⟩ [] [("a.json", some "json")] rfl
    (by decide)
    (by
      intro s hsm
      simp only [List.mem_cons, List.not_mem_nil, or_false] at hsm
      rcases hsm with h1 | h2
      · subst h1
        exact ⟨.cons "a" (.arr (.cons (.num 1) .nil)) .nil, by decide⟩
      · subst h2
        exact ⟨.cons "a" (.arr (.cons (.num 2) .nil)) .nil, by decide⟩)
  exact h.1

/- ------------------------------------------------------------------ -/
/- Claim C5.                                                            -/
/- ------------------------------------------------------------------ -/

theorem listStartsWith_append :
    ∀ (p rest : List Char), listStartsWith p (p ++ rest) = true
  | [], _ => rfl
  | c :: cs, rest => by
    show (decide (c = c) && listStartsWith cs (cs ++ rest)) = true
    rw [listStartsWith_append cs rest]
    simp

theorem strDrop_custom (ref : String) : strDrop ("custom:" ++ ref) 7 = ref := by
  unfold strDrop
  rw [String.data_append]
  have hc : ("custom:" : String).data.length = 7 := rfl
  rw [← hc, List.drop_left]

/-- C5: under a `custom:` merge method whose module resolves to a merge
function, a bare string result is taken as the merged text with all input
contributors credited, and an object result passing the custom-result
schema supplies both the merged text and the credited variants
verbatim. -/
theorem claim5_custom_merger_result
    (imports : String → Option (List SourceFileInfo → Json))
    (template : LoadedTemplate) (path : String)
    (s1 s2 : SourceFileInfo) (rest : List SourceFileInfo)
    (filesCfg : List (String × Option String)) (ref : String)
    (merge : List SourceFileInfo → Json)
    (hf : template.files = some filesCfg)
    (hm : (lookupAssoc filesCfg path).bind (fun m => m)
      = some ("custom:" ++ ref))
    (hi : imports (template.directory ++ "/" ++ ref) = some merge) :
    (∀ text : String, merge (s1 :: s2 :: rest) = .str text →
        mergeFiles imports template path (s1 :: s2 :: rest)
          = .ok ⟨(s1 :: s2 :: rest).map (fun s => s.variant), text⟩)
    ∧ (∀ o : JsonObj, merge (s1 :: s2 :: rest) = .obj o →
        validCustomResult (.obj o) = true →
        mergeFiles imports template path (s1 :: s2 :: rest)
          = .ok ⟨customResultVariants (.obj o), customResultText (.obj o)⟩) := by
  have hstart : isCustomMergeMethod ("custom:" ++ ref) = true := by
    unfold isCustomMergeMethod strStartsWith
    rw [String.data_append]
    exact listStartsWith_append _ _
  have hne1 : ¬ ("custom:" ++ ref) = "" := by
    intro h; rw [h] at hstart; exact absurd hstart (by decide)
  have hne2 : ¬ ("custom:" ++ ref) = "json" := by
    intro h; rw [h] at hstart; exact absurd hstart (by decide)
  have hne3 : ¬ ("custom:" ++ ref) = "json-shallow" := by
    intro h; rw [h] at hstart; exact absurd hstart (by decide)
  have hne4 : ¬ ("custom:" ++ ref) = "last" := by
    intro h; rw [h] at hstart; exact absurd hstart (by decide)
  have hcommon : mergeFiles imports template path (s1 :: s2 :: rest)
      = (if validCustomResult (merge (s1 :: s2 :: rest)) then
          match merge (s1 :: s2 :: rest) with
          | .str text =>
            .ok ⟨(s1 :: s2 :: rest).map (fun s => s.variant), text⟩
          | _ =>
            .ok ⟨customResultVariants (merge (s1 :: s2 :: rest)),
              customResultText (merge (s1 :: s2 :: rest))⟩
        else
          .error ("Invalid custom merger `" ++ ref ++ "`: invalid result")) := by
    simp only [mergeFiles, hf, hm, if_neg hne1, if_neg hne2, if_neg hne3,
      if_neg hne4, hstart, if_true, strDrop_custom, hi]
  refine ⟨?_, ?_⟩
  · intro text htext
    rw [hcommon, htext]
    simp [validCustomResult]
  · intro o ho hvalid
    rw [hcommon, ho, if_pos hvalid]

/-- A template whose two `x.txt` contributions are merged by a custom
merger returning a bare string. -/
def tmplCustomStr : LoadedTemplate :=
  { displayName := "T"
    variants :=
      [("v1", ⟨"V1", none, none, none, ["x.txt"]⟩),
       ("v2", ⟨"V2", none, none, none, ["x.txt"]⟩)]
    files := some [("x.txt", some "custom:merge.js")]
    id := "t"
    directory := "templates/t"
    variantFiles := [("v1", [("x.txt", "a")]), ("v2", [("x.txt", "b")])] }

/-- Like `tmplCustomStr` but stored at a directory whose custom merger
returns an object crediting only `v2`. -/
def tmplCustomObj : LoadedTemplate :=
  { tmplCustomStr with directory := "templates/t2" }

def objResultFixture : JsonObj :=
  .cons "sourceText" (.str "obj merged")
    (.cons "contributingVariants" (.arr (.cons (.str "v2") .nil)) .nil)

def customImports : String → Option (List SourceFileInfo → Json) :=
  fun p =>
    if p = "templates/t/merge.js" then some (fun _ => .str "merged!")
    else if p = "templates/t2/merge.js" then some (fun _ => .obj objResultFixture)
    else none

/-- Witness for C5: a string-returning merger credits all contributors, an
object-returning merger is trusted verbatim. -/
theorem claim5_custom_merger_result_witness :
    mergeFiles customImports tmplCustomStr "x.txt" [⟨"v1", "a"⟩, ⟨"v2", "b"⟩]
      = .ok ⟨["v1", "v2"], "merged!"⟩
    ∧ mergeFiles customImports tmplCustomObj "x.txt" [⟨"v1", "a"⟩, ⟨"v2", "b"⟩]
      = .ok ⟨customResultVariants (.obj objResultFixture),
          customResultText (.obj objResultFixture)⟩ := by
  constructor
  · exact (claim5_custom_merger_result customImports tmplCustomStr "x.txt"
      ⟨"v1", "a"⟩ ⟨"v2", "b"⟩ [] [("x.txt", some "custom:merge.js")] "merge.js"
      (fun _ => .str "merged!") rfl (by decide) rfl).1 "merged!" rfl
  · exact (claim5_custom_merger_result customImports tmplCustomObj "x.txt"
      ⟨"v1", "a"⟩ ⟨"v2", "b"⟩ [] [("x.txt", some "custom:merge.js")] "merge.js"
      (fun _ => .obj objResultFixture) rfl (by decide) rfl).2
      objResultFixture rfl (by decide)

/- ------------------------------------------------------------------ -/
/- Claims C8 and C10: the collection step.                              -/
/- ------------------------------------------------------------------ -/

/-- The contribution list collected for one output path (empty when the
path was never contributed). -/
def getContribs (m : List (String × List SourceFileInfo)) (path : String) :
    List SourceFileInfo :=
  (lookupAssoc m path).getD []

/-- The contributions a variant catalog produces for one path, in catalog
order. -/
def sourcesOfCatalog (catalog : List (String × List (String × String)))
    (path : String) : List SourceFileInfo :=
  (catalog.map (fun kv =>
    (kv.2.filter (fun f => f.1 = path)).map
      (fun f => (⟨kv.1, f.2⟩ : SourceFileInfo)))).flatten

/-- The closed form of the contribution list for a path: the active
variants enumerated in template-definition (catalog) order, each
supplying its files for that path. -/
def sourcesForPath (template : LoadedTemplate) (activeIds : List String)
    (path : String) : List SourceFileInfo :=
  sourcesOfCatalog
    (template.variantFiles.filter (fun kv => activeIds.contains kv.1)) path

theorem getContribs_addContribution
    (m : List (String × List SourceFileInfo)) (p : String) (c : SourceFileInfo)
    (q : String) :
    getContribs (addContribution m p c) q
      = if q = p then getContribs m q ++ [c] else getContribs m q := by
  induction m with
  | nil =>
    by_cases h : q = p
    · subst h
      simp [addContribution, getContribs, lookupAssoc]
    · have h2 : ¬ p = q := fun hh => h hh.symm
      simp [addContribution, getContribs, lookupAssoc, h, h2]
  | cons kv rest ih =>
    obtain ⟨p0, cs⟩ := kv
    by_cases hp0 : p0 = p
    · subst hp0
      by_cases hq : q = p0
      · subst hq
        simp [addContribution, getContribs, lookupAssoc]
      · have hq2 : ¬ p0 = q := fun hh => hq hh.symm
        simp [addContribution, getContribs, lookupAssoc, hq, hq2]
    · by_cases hq : p0 = q
      · subst hq
        have hqp : ¬ p0 = p := hp0
        simp [addContribution, getContribs, lookupAssoc, hp0, hqp]
      · simp only [addContribution, if_neg hp0]
        simp only [getContribs, lookupAssoc, if_neg hq]
        exact ih

theorem getContribs_collectVariantFiles (v : String) :
    ∀ (fs : List (String × String)) (m : List (String × List SourceFileInfo))
      (q : String),
    getContribs (collectVariantFiles m v fs) q
      = getContribs m q
        ++ (fs.filter (fun f => f.1 = q)).map
          (fun f => (⟨v, f.2⟩ : SourceFileInfo)) := by
  intro fs
  induction fs with
  | nil => intro m q; simp [collectVariantFiles]
  | cons f tl ih =>
    intro m q
    obtain ⟨p, t⟩ := f
    have hstep : collectVariantFiles m v ((p, t) :: tl)
        = collectVariantFiles (addContribution m p ⟨v, t⟩) v tl := rfl
    rw [hstep, ih, getContribs_addContribution]
    by_cases hq : q = p
    · subst hq
      simp [List.filter_cons]
    · have hq2 : ¬ p = q := fun hh => hq hh.symm
      simp [List.filter_cons, hq, hq2]

theorem getContribs_foldl_catalog :
    ∀ (catalog : List (String × List (String × String)))
      (m : List (String × List SourceFileInfo)) (q : String),
    getContribs
        (catalog.foldl (fun m kv => collectVariantFiles m kv.1 kv.2) m) q
      = getContribs m q ++ sourcesOfCatalog catalog q := by
  intro catalog
  induction catalog with
  | nil => intro m q; simp [sourcesOfCatalog]
  | cons kv tl ih =>
    intro m q
    rw [List.foldl_cons, ih, getContribs_collectVariantFiles]
    simp [sourcesOfCatalog]

/-- The shared characterization of the collection step. -/
theorem collectFiles_getContribs (template : LoadedTemplate)
    (activeIds : List String) (path : String) :
    getContribs (collectFiles template activeIds) path
      = sourcesForPath template activeIds path := by
  unfold collectFiles sourcesForPath
  rw [getContribs_foldl_catalog]
  simp [getContribs, lookupAssoc]

/-- C8: the contribution list of every path enumerates the active
variants in template-definition (catalog) order, and depends on the
user's selection only through membership — reordering or repeating the
selected ids leaves the collected map unchanged. -/
theorem claim8_contributions_in_definition_order (template : LoadedTemplate)
    (activeIds : List String) (path : String) :
    getContribs (collectFiles template activeIds) path
      = sourcesForPath template activeIds path
    ∧ (∀ ids2 : List String, (∀ x, x ∈ activeIds ↔ x ∈ ids2) →
        collectFiles template activeIds = collectFiles template ids2) := by
  refine ⟨collectFiles_getContribs template activeIds path, ?_⟩
  intro ids2 hiff
  unfold collectFiles
  have hfil : template.variantFiles.filter (fun kv => activeIds.contains kv.1)
      = template.variantFiles.filter (fun kv => ids2.contains kv.1) := by
    apply List.filter_congr
    intro kv _
    rw [Bool.eq_iff_iff]
    constructor
    · intro h
      exact List.elem_iff.mpr ((hiff kv.1).mp (List.elem_iff.mp h))
    · intro h
      exact List.elem_iff.mpr ((hiff kv.1).mpr (List.elem_iff.mp h))
  rw [hfil]

/-- Witness for C8 at a concrete input. -/
theorem claim8_contributions_in_definition_order_witness :
    getContribs (collectFiles tmplJsonMerge ["v2", "v1"]) "a.json"
      = sourcesForPath tmplJsonMerge ["v2", "v1"] "a.json"
    ∧ collectFiles tmplJsonMerge ["v2", "v1"]
      = collectFiles tmplJsonMerge ["v1", "v2", "v2"] := by
  refine ⟨(claim8_contributions_in_definition_order tmplJsonMerge
    ["v2", "v1"] "a.json").1,
    (claim8_contributions_in_definition_order tmplJsonMerge
      ["v2", "v1"] "a.json").2 ["v1", "v2", "v2"] ?_⟩
  intro x
  simp only [List.mem_cons, List.not_mem_nil, or_false]
  tauto

theorem nodup_of_length_le_one {α : Type} :
    ∀ l : List α, l.length ≤ 1 → l.Nodup
  | [], _ => List.nodup_nil
  | [a], _ => List.nodup_singleton a
  | _ :: _ :: _, h => by simp at h

theorem filter_key_length_le_one {α : Type} :
    ∀ (l : List (String × α)) (path : String),
    (l.map Prod.fst).Nodup → (l.filter (fun f => f.1 = path)).length ≤ 1 := by
  intro l
  induction l with
  | nil => intro path _; simp
  | cons f tl ih =>
    intro path hn
    simp only [List.map_cons, List.nodup_cons] at hn
    rw [List.filter_cons]
    by_cases hf : f.1 = path
    · have hnil : tl.filter (fun g => g.1 = path) = [] := by
        rw [List.filter_eq_nil_iff]
        intro g hg hgp
        apply hn.1
        simp only [decide_eq_true_eq] at hgp
        rw [hf, ← hgp]
        exact List.mem_map.mpr ⟨g, hg, rfl⟩
      simp [hf, hnil]
    · simpa [hf] using ih path hn.2

theorem sourcesOfCatalog_variant_mem :
    ∀ (catalog : List (String × List (String × String))) (path : String)
      (s : SourceFileInfo), s ∈ sourcesOfCatalog catalog path →
      s.variant ∈ catalog.map Prod.fst := by
  intro catalog
  induction catalog with
  | nil => intro path s hs; simp [sourcesOfCatalog] at hs
  | cons kv tl ih =>
    intro path s hs
    simp only [sourcesOfCatalog, List.map_cons, List.flatten_cons,
      List.mem_append] at hs
    rcases hs with h | h
    · obtain ⟨f, _, hf⟩ := List.mem_map.mp h
      simp only [List.map_cons, List.mem_cons]
      left
      rw [← hf]
    · simp only [List.map_cons, List.mem_cons]
      right
      exact ih path s h

theorem nodup_sourcesOfCatalog :
    ∀ (catalog : List (String × List (String × String))) (path : String),
    (catalog.map Prod.fst).Nodup →
    (∀ kv ∈ catalog, (kv.2.map Prod.fst).Nodup) →
    ((sourcesOfCatalog catalog path).map (fun s => s.variant)).Nodup := by
  intro catalog
  induction catalog with
  | nil => intro path _ _; simp [sourcesOfCatalog]
  | cons kv tl ih =>
    intro path hk hv
    simp only [List.map_cons, List.nodup_cons] at hk
    have hblk : ((kv.2.filter (fun f => f.1 = path)).map
        (fun f => (⟨kv.1, f.2⟩ : SourceFileInfo))).map (fun s => s.variant)
        = List.replicate (kv.2.filter (fun f => f.1 = path)).length kv.1 := by
      simp [List.map_map, Function.comp_def]
    have hlen : (kv.2.filter (fun f => f.1 = path)).length ≤ 1 :=
      filter_key_length_le_one kv.2 path (hv kv (by simp))
    simp only [sourcesOfCatalog, List.map_cons, List.flatten_cons, List.map_append]
    refine List.Nodup.append ?_ ?_ ?_
    · rw [hblk]
      exact nodup_of_length_le_one _ (by simpa using hlen)
    · exact ih path hk.2 (fun kv2 h2 => hv kv2 (by simp [h2]))
    · intro a ha hb
      have ha1 : a = kv.1 := by
        rw [hblk] at ha
        exact List.eq_of_mem_replicate ha
      obtain ⟨s, hsmem, hsv⟩ := List.mem_map.mp hb
      apply hk.1
      rw [← ha1, ← hsv] at *
      exact sourcesOfCatalog_variant_mem tl path s hsmem

/-- C10: each active variant contributes at most one entry per path, even
when the active id list repeats an id: the collection iterates the
catalog once and tests membership, so the variant names credited for any
path are pairwise distinct. -/
theorem claim10_at_most_one_contribution_per_variant
    (template : LoadedTemplate)
    (hk : (template.variantFiles.map Prod.fst).Nodup)
    (hv : ∀ kv ∈ template.variantFiles, (kv.2.map Prod.fst).Nodup)
    (activeIds : List String) (path : String) :
    ((getContribs (collectFiles template activeIds) path).map
      (fun s => s.variant)).Nodup := by
  rw [collectFiles_getContribs]
  unfold sourcesForPath
  apply nodup_sourcesOfCatalog
  · exact ((List.filter_sublist _).map Prod.fst).nodup hk
  · intro kv hkv
    exact hv kv (List.mem_of_mem_filter hkv)


/- ------------------------------------------------------------------ -/
/- Claim C9: the post-merge dependency re-sorting of package.json.      -/
/- ------------------------------------------------------------------ -/

theorem charListLe_total : ∀ a b : List Char,
    charListLe a b = true ∨ charListLe b a = true
  | [], _ => Or.inl rfl
  | _ :: _, [] => Or.inr rfl
  | a :: as, b :: bs => by
    simp only [charListLe]
    rcases Nat.lt_trichotomy a.toNat b.toNat with h | h | h
    · left; simp [h]
    · have h1 : ¬ a.toNat < b.toNat := by omega
      have h2 : ¬ b.toNat < a.toNat := by omega
      rcases charListLe_total as bs with hr | hr
      · left; simp [h1, h2, hr]
      · right; simp [h1, h2, hr]
    · right; simp [h]

theorem strLe_total (a b : String) : strLe a b = true ∨ strLe b a = true :=
  charListLe_total a.data b.data

theorem mem_insertSorted (s x : String) :
    ∀ l : List String, x ∈ insertSorted s l ↔ x = s ∨ x ∈ l := by
  intro l
  induction l with
  | nil => simp [insertSorted]
  | cons y ys ih =>
    simp only [insertSorted]
    by_cases hs : strLe s y
    · rw [if_pos hs]
      simp [List.mem_cons]
    · rw [if_neg hs]
      simp only [List.mem_cons, ih]
      tauto

theorem mem_sortStrings (x : String) :
    ∀ l : List String, x ∈ sortStrings l ↔ x ∈ l := by
  intro l
  induction l with
  | nil => simp [sortStrings]
  | cons y ys ih =>
    simp only [sortStrings, mem_insertSorted, ih, List.mem_cons]

theorem strSortedB_insertSorted (s : String) :
    ∀ l, strSortedB l = true → strSortedB (insertSorted s l) = true
  | [], _ => rfl
  | [x], _ => by
    simp only [insertSorted]
    by_cases hs : strLe s x
    · simp [hs, strSortedB]
    · have hx : strLe x s := by
        rcases strLe_total s x with h | h
        · exact absurd h hs
        · exact h
      simp [hs, insertSorted, strSortedB, hx]
  | x :: y :: ys, h => by
    simp only [strSortedB, Bool.and_eq_true] at h
    by_cases hs : strLe s x
    · simp [insertSorted, hs, strSortedB, h.1, h.2]
    · have hx : strLe x s := by
        rcases strLe_total s x with hh | hh
        · exact absurd hh hs
        · exact hh
      have hrec := strSortedB_insertSorted s (y :: ys) h.2
      by_cases hsy : strLe s y
      · simp only [insertSorted, hsy, if_true, if_neg hs]
        simp [strSortedB, hx, hsy, h.2]
      · simp only [insertSorted, if_neg hs, if_neg hsy]
        simp only [insertSorted, if_neg hsy] at hrec
        simp [strSortedB, h.1, hrec]

theorem strSortedB_sortStrings : ∀ l, strSortedB (sortStrings l) = true
  | [] => rfl
  | x :: xs => strSortedB_insertSorted x (sortStrings xs)
      (strSortedB_sortStrings xs)

theorem rebuildSorted_keys (j : Json) :
    ∀ ks : List String, (rebuildSorted j ks).keys = ks := by
  intro ks
  induction ks with
  | nil => rfl
  | cons k rest ih => simp [rebuildSorted, JsonObj.keys, ih]

theorem rebuildSorted_lookup (j : Json) :
    ∀ (ks : List String) (q : String),
    (rebuildSorted j ks).lookup q
      = if q ∈ ks then some (j.getOr q) else none := by
  intro ks
  induction ks with
  | nil => intro q; simp [rebuildSorted, JsonObj.lookup]
  | cons k rest ih =>
    intro q
    simp only [rebuildSorted, JsonObj.lookup]
    by_cases hq : k = q
    · subst hq
      simp
    · have hq2 : ¬ q = k := fun hh => hq hh.symm
      simp [hq, hq2, ih, List.mem_cons]

theorem JsonObj.lookup_isSome_of_mem :
    ∀ (o : JsonObj) (k : String), k ∈ o.keys → (o.lookup k).isSome
  | .nil, k, h => by simp [JsonObj.keys] at h
  | .cons k0 v0 tl, k, h => by
    by_cases he : k0 = k
    · simp [JsonObj.lookup, he]
    · have hk : k ∈ tl.keys := by
        simp only [JsonObj.keys, List.mem_cons] at h
        rcases h with h | h
        · exact absurd h.symm he
        · exact h
      simp [JsonObj.lookup, he, JsonObj.lookup_isSome_of_mem tl k hk]

/-- The lookups of a key-sorted object agree with the original object:
sorting the key set leaves every value unchanged. -/
theorem sortByKeys_lookup (kvs : JsonObj) (q : String) :
    (rebuildSorted (.obj kvs) (sortStrings kvs.keys)).lookup q
      = kvs.lookup q := by
  rw [rebuildSorted_lookup]
  by_cases hq : q ∈ kvs.keys
  · have hmem : q ∈ sortStrings kvs.keys := (mem_sortStrings q _).mpr hq
    have hsome := JsonObj.lookup_isSome_of_mem kvs q hq
    cases hl : kvs.lookup q with
    | none => rw [hl] at hsome; simp at hsome
    | some v => simp [hmem, Json.getOr, Json.objEntries, hl]
  · have hmem : q ∉ sortStrings kvs.keys := fun hc => hq ((mem_sortStrings q _).mp hc)
    simp [hmem, JsonObj.lookup_eq_none_of_not_mem kvs q hq]

theorem propGet_sortDepStep_ne (j : Json) (k q : String) (hq : q ≠ k) :
    propGet (sortDepStep j k) q = propGet j q := by
  unfold sortDepStep
  by_cases ht : truthyOpt (propGet j k)
  · rw [if_pos ht]
    cases j with
    | obj kvs =>
      have hne : ¬ k = q := fun h => hq h.symm
      simp [propGet, propSet, JsonObj.lookup_setKey, hne]
    | null => simp [propGet, propSet]
    | bool b => simp [propGet, propSet]
    | num n => simp [propGet, propSet]
    | str s => simp [propGet, propSet]
    | arr xs => simp [propGet, propSet]
  · rw [if_neg ht]

theorem propGet_sortDepStep_self (j : Json) (k : String) (v : Json)
    (hv : propGet j k = some v) (htv : truthy v = true) :
    propGet (sortDepStep j k) k = some (sortByKeys v) := by
  have ht : truthyOpt (propGet j k) = true := by rw [hv]; exact htv
  unfold sortDepStep
  rw [if_pos ht]
  cases j with
  | obj kvs =>
    simp [propGet, propSet, JsonObj.lookup_setKey]
    simp only [propGet] at hv
    simp [hv]
  | null => simp [propGet] at hv
  | bool b => simp [propGet] at hv
  | num n => simp [propGet] at hv
  | str s => simp [propGet] at hv
  | arr xs => simp [propGet] at hv


/-- C9: after merging `package.json` the run re-parses the merged text
and, for each of the four dependency-category keys holding an object,
re-sorts that object's key set lexicographically with all values (and
all other keys) unchanged, before re-serializing with 2-space
indentation. -/
theorem claim9_package_json_dependency_sorting
    (imports : String → Option (List SourceFileInfo → Json))
    (template : LoadedTemplate) (config : Config) (packageName : String)
    (srcs : List SourceFileInfo) (merged : MergedFileInfo) (j : Json)
    (hm : mergeFiles imports template "package.json"
      (entrySources config packageName "package.json" srcs) = .ok merged)
    (hj : Json.parse merged.sourceText = some j) (hnn : j ≠ .null) :
    processEntry imports template config packageName ("package.json", srcs)
      = .ok ("package.json",
          ⟨merged.contributingVariants, Json.stringify2 (sortDeps j)⟩)
    ∧ (∀ k ∈ depKeys, ∀ kvs : JsonObj, propGet j k = some (.obj kvs) →
        propGet (sortDeps j) k
          = some (.obj (rebuildSorted (.obj kvs) (sortStrings kvs.keys)))
        ∧ (rebuildSorted (.obj kvs) (sortStrings kvs.keys)).keys
          = sortStrings kvs.keys
        ∧ strSortedB (sortStrings kvs.keys) = true
        ∧ (∀ q, (rebuildSorted (.obj kvs) (sortStrings kvs.keys)).lookup q
            = kvs.lookup q))
    ∧ (∀ k, k ∉ depKeys → propGet (sortDeps j) k = propGet j k) := by
  refine ⟨?_, ?_, ?_⟩
  · cases j with
    | null => exact absurd rfl hnn
    | bool b => simp [processEntry, hm, hj]
    | num n => simp [processEntry, hm, hj]
    | str s => simp [processEntry, hm, hj]
    | arr xs => simp [processEntry, hm, hj]
    | obj kvs => simp [processEntry, hm, hj]
  · intro k hk kvs hkv
    have htv : truthy (Json.obj kvs) = true := rfl
    have hsort : propGet (sortDeps j) k = some (sortByKeys (.obj kvs)) := by
      simp only [depKeys, List.mem_cons, List.not_mem_nil, or_false] at hk
      unfold sortDeps
      rcases hk with h | h | h | h
      · subst h
        rw [propGet_sortDepStep_ne _ _ _ (by decide),
          propGet_sortDepStep_ne _ _ _ (by decide),
          propGet_sortDepStep_ne _ _ _ (by decide)]
        exact propGet_sortDepStep_self j _ _ hkv htv
      · subst h
        rw [propGet_sortDepStep_ne _ _ _ (by decide),
          propGet_sortDepStep_ne _ _ _ (by decide)]
        exact propGet_sortDepStep_self _ _ _
          (by rw [propGet_sortDepStep_ne _ _ _ (by decide)]; exact hkv) htv
      · subst h
        rw [propGet_sortDepStep_ne _ _ _ (by decide)]
        exact propGet_sortDepStep_self _ _ _
          (by rw [propGet_sortDepStep_ne _ _ _ (by decide),
                propGet_sortDepStep_ne _ _ _ (by decide)];
              exact hkv) htv
      · subst h
        exact propGet_sortDepStep_self _ _ _
          (by rw [propGet_sortDepStep_ne _ _ _ (by decide),
                propGet_sortDepStep_ne _ _ _ (by decide),
                propGet_sortDepStep_ne _ _ _ (by decide)];
              exact hkv) htv
    refine ⟨hsort, rebuildSorted_keys _ _, strSortedB_sortStrings _, ?_⟩
    intro q
    exact sortByKeys_lookup kvs q
  · intro k hknot
    simp only [depKeys, List.mem_cons, List.not_mem_nil, or_false,
      not_or] at hknot
    obtain ⟨h1, h2, h3, h4⟩ := hknot
    unfold sortDeps
    rw [propGet_sortDepStep_ne _ _ _ h4, propGet_sortDepStep_ne _ _ _ h3,
      propGet_sortDepStep_ne _ _ _ h2, propGet_sortDepStep_ne _ _ _ h1]

def depSrcText : String :=
  Json.stringifyCompact (.obj (.cons "devDependencies"
    (.obj (.cons "b" (.num 1) (.cons "a" (.num 2) .nil))) .nil))

/-- A template whose variant contributes a `package.json` with an
unsorted `devDependencies` object, merged by the `json` method. -/
def tmplDeps : LoadedTemplate :=
  { displayName := "T"
    variants := [("v1", ⟨"V1", none, none, none, ["package.json"]⟩)]
    files := some [("package.json", some "json")]
    id := "t"
    directory := "templates/t"
    variantFiles := [("v1", [("package.json", depSrcText)])] }

def mergedDepsFixture : MergedFileInfo :=
  ⟨["internal.node", "v1"],
    Json.stringify2 (deepmergeAll
      [(Json.parse (syntheticContribution cfgPlain "pkg").sourceText).getD .null,
       (Json.parse depSrcText).getD .null])⟩

def jDepsFixture : Json :=
  (Json.parse mergedDepsFixture.sourceText).getD .null

/-- Witness for C9 at a concrete input with an unsorted dependency
map. -/
theorem claim9_package_json_dependency_sorting_witness :
    processEntry noImports tmplDeps cfgPlain "pkg"
        ("package.json", [⟨"v1", depSrcText⟩])
      = .ok ("package.json",
          ⟨mergedDepsFixture.contributingVariants,
            Json.stringify2 (sortDeps jDepsFixture)⟩)
    ∧ propGet (sortDeps jDepsFixture) "devDependencies"
      = some (.obj (rebuildSorted
          (.obj (.cons "b" (.num 1) (.cons "a" (.num 2) .nil)))
          (sortStrings
            (JsonObj.cons "b" (.num 1) (.cons "a" (.num 2) .nil)).keys))) := by
  have h := claim9_package_json_dependency_sorting noImports tmplDeps cfgPlain
    "pkg" [⟨"v1", depSrcText⟩] mergedDepsFixture jDepsFixture
    (by decide) (by decide) (by decide)
  exact ⟨h.1,
    (h.2.1 "devDependencies" (by decide)
      (.cons "b" (.num 1) (.cons "a" (.num 2) .nil)) (by decide)).1⟩


/- ------------------------------------------------------------------ -/
/- Claim C4: success and failure of template loading.                   -/
/- ------------------------------------------------------------------ -/

/-- `distinctFrom used names`: every name is distinct from the earlier
ones and from `used` (pairwise distinctness relative to a set of already
used names). -/
def distinctFrom (used : List String) : List String → Bool
  | [] => true
  | n :: ns => !used.contains n && distinctFrom (n :: used) ns

def isFileAt (ventries : FsEntries) (p : String) : Bool :=
  match fsResolve ventries (splitPath p) with
  | some (.file _) => true
  | _ => false

/-- One variant is loadable: its directory exists as a directory under
the template directory and every declared file resolves to a file. -/
def variantOk (tentries : FsEntries) (kv : String × TemplateVariant) : Bool :=
  match fsLookup tentries kv.1 with
  | some (.dir ventries) => kv.2.files.all (fun p => isFileAt ventries p)
  | _ => false

/-- The parsed, schema-validated definition of a template directory, when
the directory is a directory holding a parseable and valid
`template.json`. -/
def templateConfigOf (entry : FsEntry) : Option Template :=
  match entry with
  | .dir tentries =>
    (match fsLookup tentries "template.json" with
     | some (.file src) => (Json.parse src).bind templateOfJson
     | _ => none)
  | .file _ => none

/-- One template directory passes every per-template check of the loader:
it is a directory with a parseable schema-valid `template.json`, its
variant display names are pairwise distinct, and every variant directory
and declared file exists. -/
def templateOkB (entry : FsEntry) : Bool :=
  match entry, templateConfigOf entry with
  | .dir tentries, some cfg =>
    cfg.variants.all (fun kv => variantOk tentries kv)
      && distinctFrom [] (cfg.variants.map (fun kv => kv.2.displayName))
  | _, _ => false

def nameFreshB (used : List String) (entry : FsEntry) : Bool :=
  match templateConfigOf entry with
  | some cfg => !used.contains cfg.displayName
  | none => false

def templatesAllOk : FsEntries → Bool
  | .nil => true
  | .cons _ e tl => templateOkB e && templatesAllOk tl

def displayNamesOf : FsEntries → List String
  | .nil => []
  | .cons _ e tl =>
    match templateConfigOf e with
    | some cfg => cfg.displayName :: displayNamesOf tl
    | none => displayNamesOf tl

/-- The success condition of `readTemplates`: every template directory
passes the per-template checks and the template display names are
pairwise distinct. -/
def templatesLoadOk (entries : FsEntries) : Bool :=
  templatesAllOk entries && distinctFrom [] (displayNamesOf entries)

theorem loadVariantFiles_isOk (label : String) (ventries : FsEntries) :
    ∀ paths : List String,
    exOk (loadVariantFiles label ventries paths)
      = paths.all (fun p => isFileAt ventries p) := by
  intro paths
  induction paths with
  | nil => rfl
  | cons p rest ih =>
    rw [List.all_cons]
    cases hres : fsResolve ventries (splitPath p) with
    | none =>
      have hf : isFileAt ventries p = false := by simp [isFileAt, hres]
      rw [hf]
      simp only [loadVariantFiles, hres]
      simp only [exOk, Bool.false_and]
    | some e =>
      cases e with
      | file content =>
        have hf : isFileAt ventries p = true := by simp [isFileAt, hres]
        rw [hf, Bool.true_and]
        cases hrec : loadVariantFiles label ventries rest with
        | error e2 =>
          rw [hrec] at ih
          simp only [loadVariantFiles, hres, hrec]
          exact ih
        | ok fs =>
          rw [hrec] at ih
          simp only [loadVariantFiles, hres, hrec]
          exact ih
      | dir es =>
        have hf : isFileAt ventries p = false := by simp [isFileAt, hres]
        rw [hf]
        simp only [loadVariantFiles, hres]
        simp only [exOk, Bool.false_and]

theorem loadVariants_isOk (templateId : String) (tentries : FsEntries) :
    ∀ (vars : List (String × TemplateVariant)) (used : List String),
    exOk (loadVariants templateId tentries vars used)
      = (vars.all (fun kv => variantOk tentries kv)
          && distinctFrom used (vars.map (fun kv => kv.2.displayName))) := by
  intro vars
  induction vars with
  | nil => intro used; rfl
  | cons kv rest ih =>
    intro used
    obtain ⟨vid, v⟩ := kv
    rw [List.all_cons, List.map_cons, distinctFrom]
    by_cases hc : used.contains v.displayName
    · rw [hc]
      simp only [loadVariants, hc, if_true]
      simp [exOk]
    · have hcf : used.contains v.displayName = false := by
        cases hval : used.contains v.displayName
        · rfl
        · exact absurd hval hc
      rw [hcf]
      simp only [loadVariants, hcf, Bool.false_eq_true, if_false,
        Bool.not_false, Bool.true_and]
      cases hlook : fsLookup tentries vid with
      | none =>
        have hvo : variantOk tentries (vid, v) = false := by
          simp [variantOk, hlook]
        rw [hvo]
        simp [exOk]
      | some e =>
        cases e with
        | file content =>
          have hvo : variantOk tentries (vid, v) = false := by
            simp [variantOk, hlook]
          rw [hvo]
          simp [exOk]
        | dir ventries =>
          have hvo : variantOk tentries (vid, v)
              = v.files.all (fun p => isFileAt ventries p) := by
            simp [variantOk, hlook]
          have hlfe := loadVariantFiles_isOk ("variant `" ++ vid
            ++ "` for template `" ++ templateId ++ "`") ventries v.files
          cases hlf : loadVariantFiles ("variant `" ++ vid
              ++ "` for template `" ++ templateId ++ "`") ventries v.files with
          | error e2 =>
            rw [hlf] at hlfe
            simp only [exOk] at hlfe
            simp only [hlf, hvo, ← hlfe]
            simp [exOk]
          | ok files =>
            rw [hlf] at hlfe
            simp only [exOk] at hlfe
            have ih2 := ih (v.displayName :: used)
            cases hrec : loadVariants templateId tentries rest
                (v.displayName :: used) with
            | error e3 =>
              rw [hrec] at ih2
              simp only [exOk] at ih2
              simp only [hlf, hrec, hvo, ← hlfe, Bool.true_and]
              rw [← ih2]
              simp [exOk]
            | ok restRes =>
              rw [hrec] at ih2
              simp only [exOk] at ih2
              simp only [hlf, hrec, hvo, ← hlfe, Bool.true_and]
              rw [← ih2]
              simp [exOk]

theorem loadTemplate_isOk (dp id : String) (entry : FsEntry)
    (used : List String) :
    exOk (loadTemplate dp id entry used)
      = (templateOkB entry && nameFreshB used entry) := by
  cases entry with
  | file content => rfl
  | dir tentries =>
    simp only [loadTemplate, templateOkB, nameFreshB, templateConfigOf]
    cases hlook : fsLookup tentries "template.json" with
    | none => simp [hlook, exOk]
    | some e =>
      cases e with
      | dir es => simp [hlook, exOk]
      | file src =>
        simp only [hlook]
        cases hp : Json.parse src with
        | none => simp [hp, exOk]
        | some cfgJson =>
          simp only [hp, Option.some_bind]
          cases ht : templateOfJson cfgJson with
          | none => simp [ht, exOk]
          | some cfg =>
            simp only [ht]
            by_cases hc : cfg.displayName ∈ used
            · simp [hc, exOk]
            · have hlv := loadVariants_isOk id tentries cfg.variants []
              cases hrec : loadVariants id tentries cfg.variants [] with
              | error e2 =>
                rw [hrec] at hlv
                simp only [exOk] at hlv
                simp [hc, hrec, exOk, ← hlv]
              | ok vf =>
                rw [hrec] at hlv
                simp only [exOk] at hlv
                simp [hc, hrec, exOk, ← hlv]

theorem loadTemplate_displayName (dp id : String) (entry : FsEntry)
    (used : List String) (lt : LoadedTemplate)
    (h : loadTemplate dp id entry used = .ok lt) :
    ∃ cfg : Template, templateConfigOf entry = some cfg
      ∧ lt.displayName = cfg.displayName := by
  cases entry with
  | file content => exact absurd h (by simp [loadTemplate])
  | dir tentries =>
    simp only [loadTemplate] at h
    simp only [templateConfigOf]
    cases hlook : fsLookup tentries "template.json" with
    | none => simp [hlook] at h
    | some e =>
      cases e with
      | dir es => simp [hlook] at h
      | file src =>
        simp only [hlook] at h ⊢
        cases hp : Json.parse src with
        | none => simp [hp] at h
        | some cfgJson =>
          simp only [hp, Option.some_bind] at h ⊢
          cases ht : templateOfJson cfgJson with
          | none => simp [ht] at h
          | some cfg =>
            simp only [ht] at h ⊢
            refine ⟨cfg, rfl, ?_⟩
            by_cases hc : used.contains cfg.displayName = true
            · rw [if_pos hc] at h
              exact absurd h (by simp)
            · rw [if_neg hc] at h
              cases hrec : loadVariants id tentries cfg.variants [] with
              | error e2 => rw [hrec] at h; exact absurd h (by simp)
              | ok vf =>
                rw [hrec] at h
                have h2 := Except.ok.inj h
                rw [← h2]

theorem readTemplatesGo_isOk (dp : String) :
    ∀ (entries : FsEntries) (used : List String),
    exOk (readTemplatesGo dp entries used)
      = (templatesAllOk entries && distinctFrom used (displayNamesOf entries))
  | .nil, used => by
    simp [readTemplatesGo, templatesAllOk, displayNamesOf, distinctFrom, exOk]
  | .cons id e tl, used => by
    have hlt := loadTemplate_isOk dp id e used
    simp only [readTemplatesGo, templatesAllOk, displayNamesOf]
    cases hload : loadTemplate dp id e used with
    | error err =>
      rw [hload] at hlt
      simp only [exOk] at hlt
      dsimp only
      cases hok : templateOkB e with
      | false => simp [exOk, hok]
      | true =>
        rw [hok, Bool.true_and] at hlt
        cases hcfg : templateConfigOf e with
        | none =>
          cases e with
          | file content => exact absurd hok (by simp [templateOkB])
          | dir tes =>
            simp only [templateOkB, hcfg] at hok
            exact absurd hok (by simp)
        | some cfg =>
          simp only [nameFreshB, hcfg] at hlt
          have hct : used.contains cfg.displayName = true := by
            cases hval : used.contains cfg.displayName
            · rw [hval] at hlt; simp at hlt
            · rfl
          have hmem : cfg.displayName ∈ used := List.elem_iff.mp hct
          simp [exOk, hcfg, distinctFrom, hct, hmem]
    | ok lt =>
      rw [hload] at hlt
      simp only [exOk] at hlt
      obtain ⟨cfg, hcfg, hdn⟩ := loadTemplate_displayName dp id e used lt hload
      have hok : templateOkB e = true := by
        cases h1 : templateOkB e
        · rw [h1, Bool.false_and] at hlt; simp at hlt
        · rfl
      have hfr : nameFreshB used e = true := by
        cases h1 : nameFreshB used e
        · rw [h1, Bool.and_false] at hlt; simp at hlt
        · rfl
      have hcontains : used.contains cfg.displayName = false := by
        simp only [nameFreshB, hcfg] at hfr
        cases hval : used.contains cfg.displayName
        · rfl
        · rw [hval] at hfr; simp at hfr
      dsimp only
      rw [hdn]
      have ihl := readTemplatesGo_isOk dp tl (cfg.displayName :: used)
      simp only [hok, Bool.true_and, hcfg, distinctFrom, hcontains,
        Bool.not_false, Bool.true_and]
      cases hgo : readTemplatesGo dp tl (cfg.displayName :: used) with
      | error e2 =>
        rw [hgo] at ihl
        simp only [exOk] at ihl
        dsimp only
        exact ihl
      | ok rr =>
        rw [hgo] at ihl
        simp only [exOk] at ihl
        dsimp only
        exact ihl

/-- C4 (amended): loading the templates directory succeeds if and only
if every template directory is a directory containing a parseable,
schema-valid `template.json`, variant display names are pairwise distinct
within each template, every variant directory exists and every declared
variant file exists on disk, and template display names are pairwise
distinct across templates.  In particular a missing declared file or a
schema-validation failure makes loading fail, but they are not the only
failure causes. -/
theorem claim4_loading_success_characterization (dp : String)
    (entries : FsEntries) :
    exOk (readTemplates dp entries) = templatesLoadOk entries :=
  readTemplatesGo_isOk dp entries []

/-- The failure condition asserted by the original claim: some variant's
declared file is absent on disk (read generously: its variant directory
is missing or a declared file does not resolve to a file), or the
template definition fails schema validation (including not parsing). -/
def claimC4TemplateBad (entry : FsEntry) : Bool :=
  match entry with
  | .file _ => false
  | .dir tentries =>
    (match fsLookup tentries "template.json" with
     | some (.file src) =>
       (match Json.parse src with
        | some cfgJson =>
          (match templateOfJson cfgJson with
           | none => true
           | some cfg => cfg.variants.any (fun kv => !(variantOk tentries kv)))
        | none => true)
     | _ => false)

def claimC4FailAny : FsEntries → Bool
  | .nil => false
  | .cons _ e tl => claimC4TemplateBad e || claimC4FailAny tl

def dupVariantCfgJson : Json :=
  .obj (.cons "displayName" (.str "Dup")
    (.cons "variants" (.obj
      (.cons "a" (.obj
        (.cons "displayName" (.str "Same")
          (.cons "files" (.arr (.cons (.str "f.txt") .nil)) .nil)))
      (.cons "b" (.obj
        (.cons "displayName" (.str "Same")
          (.cons "files" (.arr (.cons (.str "g.txt") .nil)) .nil)))
      .nil))) .nil))

/-- A templates directory with one template whose two variants share a
display name, while its definition is schema-valid and every variant
directory and declared file exists. -/
def fsDupVariants : FsEntries :=
  .cons "t1" (.dir
    (.cons "template.json" (.file (Json.stringifyCompact dupVariantCfgJson))
    (.cons "a" (.dir (.cons "f.txt" (.file "fa") .nil))
    (.cons "b" (.dir (.cons "g.txt" (.file "gb") .nil))
    .nil)))) .nil

set_option maxRecDepth 4096 in
/-- C4 counterexample: loading fails on this directory although no
variant file is absent and the definition passes schema validation — the
claimed iff does not hold (here the failure cause is a duplicate variant
display name). -/
theorem claim4_counterexample_duplicate_display_names :
    exOk (readTemplates "templates" fsDupVariants) = false
    ∧ claimC4FailAny fsDupVariants = false
    ∧ (templateOfJson dupVariantCfgJson).isSome = true := by
  decide

/-- Witness for C10 with a duplicated active id. -/
theorem claim10_at_most_one_contribution_per_variant_witness :
    ((getContribs (collectFiles tmplJsonMerge ["v1", "v1", "v2"]) "a.json").map
      (fun s => s.variant)).Nodup :=
  claim10_at_most_one_contribution_per_variant tmplJsonMerge
    (by decide) (by decide) ["v1", "v1", "v2"] "a.json"

end CRPML
